import Mathlib

/-!
Shallow embedding of `src/control/src/ws_mpc/mpc_main.py` (iterative linear
MPC path tracking) together with proofs of the specification claims about it.

Python floats are modelled as real numbers.  A Python function that can raise
is embedded with `Except PyErr` (or `Option` when the only failure is one
exception); a Python `None` returned as a value is an `Option.none` inside the
success case.  Numpy float division by zero yields `inf`/`nan` without raising;
real division by zero totalises to `0` here — neither raises, which is all the
error-behaviour claims depend on.
-/

open Classical Real

noncomputable section

/-- Errors a Python call in this module can raise:
`ValueError` from the sortedness check in `CubicSpline1D.__init__`,
`numpy.linalg.LinAlgError` from `np.linalg.solve` on an exactly singular
system, and `IndexError` from an out-of-range list subscript. -/
inductive PyErr where
  | valueError : PyErr
  | linAlgError : PyErr
  | indexError : PyErr

/-- np.deg2rad. -/
def deg2rad (x : ℝ) : ℝ := x * Real.pi / 180

-- module-level constants of mpc_main.py
def NX : ℕ := 4
def NU : ℕ := 2
def T : ℕ := 5

def R : Matrix (Fin 2) (Fin 2) ℝ := !![0.01, 0; 0, 0.01]

def Rd : Matrix (Fin 2) (Fin 2) ℝ := !![0.01, 0; 0, 1.0]

def Q : Matrix (Fin 4) (Fin 4) ℝ := !![1, 0, 0, 0; 0, 1, 0, 0; 0, 0, 0.5, 0; 0, 0, 0, 0.5]

def Qf : Matrix (Fin 4) (Fin 4) ℝ := Q

def GOAL_DIS : ℝ := 1.5
def STOP_SPEED : ℝ := 0.5 / 3.6
def MAX_TIME : ℝ := 500.0
def MAX_ITER : ℕ := 3
def DU_TH : ℝ := 0.1
def TARGET_SPEED : ℝ := 15.0 / 3.6
def N_IND_SEARCH : ℕ := 10
def DT : ℝ := 0.2
def WB : ℝ := 2.5
def MAX_STEER : ℝ := deg2rad 45.0
def MAX_DSTEER : ℝ := deg2rad 30.0
def MAX_SPEED : ℝ := 55.0 / 3.6
def MIN_SPEED : ℝ := 0.0 / 3.6
def MAX_ACCEL : ℝ := 1.0

/-- Python float modulo with a positive modulus: `x % m = x - m * floor (x / m)`
(the result carries the sign of the divisor). -/
def fmod (x m : ℝ) : ℝ := x - m * ⌊x / m⌋

/-- The function angle_mod with its default arguments (`zero_2_2pi = False`,
`degree = False`) on a single float: `(x + pi) % (2 * pi) - pi`. -/
def angle_mod (x : ℝ) : ℝ := fmod (x + Real.pi) (2 * Real.pi) - Real.pi

/-- pi_2_pi. -/
def pi_2_pi (angle : ℝ) : ℝ := angle_mod angle

/-- math.atan2 y x. -/
def atan2 (y x : ℝ) : ℝ :=
  if 0 < x then Real.arctan (y / x)
  else if x < 0 then
    (if 0 ≤ y then Real.arctan (y / x) + Real.pi else Real.arctan (y / x) - Real.pi)
  else
    (if 0 < y then Real.pi / 2 else if y < 0 then -(Real.pi / 2) else 0)

/-- The vehicle `State` class (fields `x`, `y`, `yaw`, `v`; the auxiliary
`predelta` field is never read by the embedded functions and is omitted). -/
structure State where
  x : ℝ
  y : ℝ
  yaw : ℝ
  v : ℝ

/-- get_linear_model_matrix: returns `(A, B, C)` built entrywise from
zero matrices exactly as in the source.  The state is ordered
`x = (x, y, v, yaw)` and the input `u = (accel, steer)`. -/
def get_linear_model_matrix (v phi delta : ℝ) :
    Matrix (Fin 4) (Fin 4) ℝ × Matrix (Fin 4) (Fin 2) ℝ × (Fin 4 → ℝ) :=
  (!![1, 0, DT * Real.cos phi, -(DT * v * Real.sin phi);
      0, 1, DT * Real.sin phi, DT * v * Real.cos phi;
      0, 0, 1, 0;
      0, 0, DT * Real.tan delta / WB, 1],
   !![0, 0;
      0, 0;
      DT, 0;
      0, DT * v / (WB * Real.cos delta ^ 2)],
   ![DT * v * Real.sin phi * phi,
     -(DT * v * Real.cos phi * phi),
     0,
     -(DT * v * delta / (WB * Real.cos delta ^ 2))])

/-- Evaluate the affine model `x' = A x + B u + C` returned by
`get_linear_model_matrix` at a state vector and an input vector. -/
def affine_next (M : Matrix (Fin 4) (Fin 4) ℝ × Matrix (Fin 4) (Fin 2) ℝ × (Fin 4 → ℝ))
    (x : Fin 4 → ℝ) (u : Fin 2 → ℝ) : Fin 4 → ℝ :=
  M.1.mulVec x + M.2.1.mulVec u + M.2.2

/-- update_state: one nonlinear bicycle-model step over `DT`; the steering
input is clamped to `±MAX_STEER` before use and the integrated speed is
clamped to `[MIN_SPEED, MAX_SPEED]` afterwards. -/
def update_state (st : State) (a delta : ℝ) : State :=
  let delta1 := if delta ≥ MAX_STEER then MAX_STEER
    else if delta ≤ -MAX_STEER then -MAX_STEER else delta
  let x1 := st.x + st.v * Real.cos st.yaw * DT
  let y1 := st.y + st.v * Real.sin st.yaw * DT
  let yaw1 := st.yaw + st.v / WB * Real.tan delta1 * DT
  let v1 := st.v + a * DT
  let v2 := if v1 > MAX_SPEED then MAX_SPEED else if v1 < MIN_SPEED then MIN_SPEED else v1
  ⟨x1, y1, yaw1, v2⟩

/-- check_goal: the Python function returns a bool; it is embedded as the
proposition that bool decides.  `isgoal` is first the broadened distance
test, then forced false when the index lag is at least 5; the result is
`isgoal and isstop`. -/
def check_goal (st : State) (goal : ℝ × ℝ) (tind nind : ℤ) : Prop :=
  let dx := st.x - goal.1
  let dy := st.y - goal.2
  let d := Real.sqrt (dx ^ 2 + dy ^ 2)
  let isgoal := (d ≤ GOAL_DIS ∨ dx < 0 ∨ dy < 0) ∧ ¬(|tind - nind| ≥ 5)
  let isstop := |st.v| ≤ STOP_SPEED
  isgoal ∧ isstop

/-- The chain of nonlinear states built by predict_motion: state number 0 is
read off `x0 = [x, y, v, yaw]`, state number `i+1` applies `update_state`
with the `i`-th candidate controls. -/
def pm_state (x0 : Fin 4 → ℝ) (oa od : ℕ → ℝ) : ℕ → State
  | 0 => ⟨x0 0, x0 1, x0 3, x0 2⟩
  | i + 1 => update_state (pm_state x0 oa od i) (oa i) (od i)

/-- predict_motion: column `i` of `xbar` holds `(x, y, v, yaw)` of the `i`-th
nonlinear state (column 0 is exactly `x0`). -/
def predict_motion (x0 : Fin 4 → ℝ) (oa od : ℕ → ℝ) : ℕ → Fin 4 → ℝ :=
  fun i => ![(pm_state x0 oa od i).x, (pm_state x0 oa od i).y,
             (pm_state x0 oa od i).v, (pm_state x0 oa od i).yaw]

/-- An assignment of the QP decision variables of linear_mpc_control:
states `x[0..T]` (4-dim) and inputs `u[0..T-1]` (2-dim). -/
structure QPSolution where
  xs : ℕ → Fin 4 → ℝ
  us : ℕ → Fin 2 → ℝ

/-- The cost built by linear_mpc_control: input cost every step, state
tracking cost for steps 1..T-1, input-difference cost between consecutive
steps, and terminal tracking cost at step T. -/
def mpc_cost (xref : ℕ → Fin 4 → ℝ) (sol : QPSolution) : ℝ :=
  (∑ t ∈ Finset.range T, Matrix.dotProduct (sol.us t) (R.mulVec (sol.us t))) +
  (∑ t ∈ Finset.range T,
    if t ≠ 0 then
      Matrix.dotProduct (fun i => xref t i - sol.xs t i) (Q.mulVec fun i => xref t i - sol.xs t i)
    else 0) +
  (∑ t ∈ Finset.range (T - 1),
    Matrix.dotProduct (fun i => sol.us (t + 1) i - sol.us t i)
      (Rd.mulVec fun i => sol.us (t + 1) i - sol.us t i)) +
  Matrix.dotProduct (fun i => xref T i - sol.xs T i) (Qf.mulVec fun i => xref T i - sol.xs T i)

/-- The constraint list built by linear_mpc_control (lines 686-699): the
per-step linearised dynamics, the steering-rate bound between consecutive
inputs (added for `t < T - 1`), the initial-state equality, the speed bounds
on every state, and the acceleration/steering magnitude bounds on every
input. -/
def mpc_constraints (xbar : ℕ → Fin 4 → ℝ) (dref : ℕ → ℝ) (x0 : Fin 4 → ℝ)
    (sol : QPSolution) : Prop :=
  (∀ t < T, sol.xs (t + 1) =
      affine_next (get_linear_model_matrix (xbar t 2) (xbar t 3) (dref t)) (sol.xs t) (sol.us t)) ∧
  (∀ t, t + 1 < T → |sol.us (t + 1) 1 - sol.us t 1| ≤ MAX_DSTEER * DT) ∧
  sol.xs 0 = x0 ∧
  (∀ t ≤ T, sol.xs t 2 ≤ MAX_SPEED ∧ MIN_SPEED ≤ sol.xs t 2) ∧
  (∀ t < T, |sol.us t 0| ≤ MAX_ACCEL ∧ |sol.us t 1| ≤ MAX_STEER)

/-- linear_mpc_control, parameterised by the external convex QP solver
(cvxpy with the CLARABEL backend, which is not part of this repository).
The solver receives the cost and the constraint set; `none` stands for any
non-optimal solver status.  On success the source returns the tuple
`(oa, odelta, ox, oy, oyaw, ov)` read off rows `u[0], u[1], x[0], x[1],
x[3], x[2]` of the solution. -/
def linear_mpc_control
    (solveQP : (QPSolution → ℝ) → (QPSolution → Prop) → Option QPSolution)
    (xref : ℕ → Fin 4 → ℝ) (xbar : ℕ → Fin 4 → ℝ) (x0 : Fin 4 → ℝ) (dref : ℕ → ℝ) :
    Option ((ℕ → ℝ) × (ℕ → ℝ) × (ℕ → ℝ) × (ℕ → ℝ) × (ℕ → ℝ) × (ℕ → ℝ)) :=
  match solveQP (mpc_cost xref) (mpc_constraints xbar dref x0) with
  | some sol =>
      some (fun t => sol.us t 0, fun t => sol.us t 1,
            fun t => sol.xs t 0, fun t => sol.xs t 1,
            fun t => sol.xs t 3, fun t => sol.xs t 2)
  | none => none

/-- Result of a Python call that either returns a value or escapes with an
uncaught `TypeError`. -/
inductive PyRes (α : Type) where
  | ok : α → PyRes α
  | typeError : PyRes α

/-- The value the iterative loop carries between iterations: the candidate
control sequence and, once a solve has succeeded, the solved state
trajectory `(ox, oy, oyaw, ov)` (initially the Python `None`s). -/
structure LMPCOut where
  oa : ℕ → ℝ
  od : ℕ → ℝ
  traj : Option ((ℕ → ℝ) × (ℕ → ℝ) × (ℕ → ℝ) × (ℕ → ℝ))

/-- Control change `du = sum(abs(oa - poa)) + sum(abs(od - pod))` over the horizon. -/
def du_val (oa poa od pod : ℕ → ℝ) : ℝ :=
  (∑ t ∈ Finset.range T, |oa t - poa t|) + (∑ t ∈ Finset.range T, |od t - pod t|)

/-- One pass of the `for i in range(MAX_ITER)` loop of
iterative_linear_mpc_control, with `k` remaining iterations.  When
linear_mpc_control returns its `None` failure sentinel, the very next
source line `du = sum(abs(oa - poa)) + sum(abs(od - pod))` subtracts a list
from `None` and raises an uncaught `TypeError`; exhausting the cap returns
the last candidate (the for-else only prints a warning). -/
def ilmpc_loop (solveQP : (QPSolution → ℝ) → (QPSolution → Prop) → Option QPSolution)
    (xref : ℕ → Fin 4 → ℝ) (x0 : Fin 4 → ℝ) (dref : ℕ → ℝ) :
    ℕ → LMPCOut → PyRes LMPCOut
  | 0, cur => .ok cur
  | k + 1, cur =>
    match linear_mpc_control solveQP xref (predict_motion x0 cur.oa cur.od) x0 dref with
    | none => .typeError
    | some (oa, od, ox, oy, oyaw, ov) =>
      let nxt : LMPCOut := ⟨oa, od, some (ox, oy, oyaw, ov)⟩
      if du_val oa cur.oa od cur.od ≤ DU_TH then .ok nxt
      else ilmpc_loop solveQP xref x0 dref k nxt

/-- iterative_linear_mpc_control: a `None` warm start (either component) is
replaced by the all-zero control sequence, then the refinement loop runs for
at most `MAX_ITER` iterations. -/
def iterative_linear_mpc_control
    (solveQP : (QPSolution → ℝ) → (QPSolution → Prop) → Option QPSolution)
    (xref : ℕ → Fin 4 → ℝ) (x0 : Fin 4 → ℝ) (dref : ℕ → ℝ)
    (oa0 od0 : Option (ℕ → ℝ)) : PyRes LMPCOut :=
  match oa0, od0 with
  | some oa, some od => ilmpc_loop solveQP xref x0 dref MAX_ITER ⟨oa, od, none⟩
  | _, _ => ilmpc_loop solveQP xref x0 dref MAX_ITER ⟨fun _ => 0, fun _ => 0, none⟩

/-- Python `min` over a list of floats (`ValueError`, i.e. `none`, on an
empty list; ties keep the first minimal value, which for the later
`list.index` lookup is the same value anyway). -/
def pyMinList : List ℝ → Option ℝ
  | [] => none
  | a :: l => some (l.foldl (fun m b => min m b) a)

/-- Python `list.index`: index of the first occurrence (the callers below
only use it with a value known to be present). -/
def pyIndexOf : List ℝ → ℝ → ℕ
  | [], _ => 0
  | a :: l, v => if a = v then 0 else pyIndexOf l v + 1

/-- calc_nearest_index: squared distances over the forward window
`cx[pind : pind + N_IND_SEARCH]`, the matched index, and the signed
distance (negative when the normalised bearing test is negative).  `none`
models the `ValueError` python's `min` raises on an empty window. -/
def calc_nearest_index (st : State) (cx cy cyaw : List ℝ) (pind : ℕ) :
    Option (ℕ × ℝ) :=
  let d := List.zipWith (fun icx icy => (st.x - icx) ^ 2 + (st.y - icy) ^ 2)
    ((cx.drop pind).take N_IND_SEARCH) ((cy.drop pind).take N_IND_SEARCH)
  match pyMinList d with
  | none => none
  | some mind =>
    let ind := pyIndexOf d mind + pind
    let mind1 := Real.sqrt mind
    let dxl := cx.getD ind 0 - st.x
    let dyl := cy.getD ind 0 - st.y
    let angle := pi_2_pi (cyaw.getD ind 0 - atan2 dyl dxl)
    some (ind, if angle < 0 then -mind1 else mind1)

/-- Python `round` (ties to even) composed with `int(...)` (the argument is
already integral, so `int` only converts). -/
def pyRound (x : ℝ) : ℤ :=
  if Int.fract x = 1 / 2 then (if Even ⌊x⌋ then ⌊x⌋ else ⌊x⌋ + 1) else round x

/-- calc_ref_trajectory.  The reference window is a function of the row
number: the source fills rows 0..T and row 0 is overwritten by the `i = 0`
loop iteration, whose accumulated travel is already `|v| * DT`; once the
advanced index leaves the course it clamps to the final sample.  `ck` is
received and never read, as in the source.  All `dref` entries are 0.
`none` models the `ValueError` escaping from calc_nearest_index. -/
def calc_ref_trajectory (st : State) (cx cy cyaw ck sp : List ℝ) (dl : ℝ) (pind : ℕ) :
    Option ((ℕ → Fin 4 → ℝ) × ℕ × (ℕ → ℝ)) :=
  match calc_nearest_index st cx cy cyaw pind with
  | none => none
  | some (ind0, _) =>
    let ind := if pind ≥ ind0 then pind else ind0
    let ncourse := cx.length
    let xref : ℕ → Fin 4 → ℝ := fun i =>
      let travel := ((i : ℝ) + 1) * (|st.v| * DT)
      let dind := (pyRound (travel / dl)).toNat
      if ind + dind < ncourse then
        ![cx.getD (ind + dind) 0, cy.getD (ind + dind) 0,
          sp.getD (ind + dind) 0, cyaw.getD (ind + dind) 0]
      else
        ![cx.getD (ncourse - 1) 0, cy.getD (ncourse - 1) 0,
          sp.getD (ncourse - 1) 0, cyaw.getD (ncourse - 1) 0]
    some (xref, ind, fun _ => 0)

/-- One iteration of the calc_speed_profile loop body acting on the
`direction` flag: the 45-degree test is evaluated only when both coordinate
deltas of segment `i` are non-zero; otherwise the flag is returned
unchanged. -/
def cspStep (cx cy cyaw : List ℝ) (i : ℕ) (dir : ℝ) : ℝ :=
  let dx := cx.getD (i + 1) 0 - cx.getD i 0
  let dy := cy.getD (i + 1) 0 - cy.getD i 0
  if dx ≠ 0 ∧ dy ≠ 0 then
    (if |pi_2_pi (atan2 dy dx - cyaw.getD i 0)| ≥ Real.pi / 4 then -1 else 1)
  else dir

/-- The `direction` flag after the loop has processed segments `0..i`
(it starts at `1.0`, forward). -/
def cspDirAfter (cx cy cyaw : List ℝ) : ℕ → ℝ
  | 0 => cspStep cx cy cyaw 0 1
  | i + 1 => cspStep cx cy cyaw (i + 1) (cspDirAfter cx cy cyaw i)

/-- calc_speed_profile.  The loop writes index `i` exactly once, at
iteration `i`, using the direction flag after processing segment `i`
(`cspDirAfter`); indices not written keep the initial `target_speed`;
finally `speed_profile[-1] = 0.0` overwrites the last entry.  (On an empty
course python would raise on that last write; the claims only use courses
of length at least 2.) -/
def calc_speed_profile (cx cy cyaw : List ℝ) (target_speed : ℝ) : List ℝ :=
  let n := cx.length
  (((List.range n).map fun i =>
      if i < n - 1 then
        (if cspDirAfter cx cy cyaw i ≠ 1 then -target_speed else target_speed)
      else target_speed)).set (n - 1) 0

/-- np.diff. -/
def npDiff (l : List ℝ) : List ℝ := List.zipWith (fun b a => b - a) l.tail l

/-- CubicSpline2D.__calc_s: chord lengths `hypot (diff x) (diff y)` and
their cumulative sums prefixed with 0 (`List.scanl` produces exactly
`[0] + cumsum ds`). -/
def calc_s (x y : List ℝ) : List ℝ :=
  List.scanl (· + ·) 0
    (List.zipWith (fun a b => Real.sqrt (a ^ 2 + b ^ 2)) (npDiff x) (npDiff y))

/-- CubicSpline1D.__search_index: `bisect.bisect(xs, v) - 1`.  On a sorted
list `bisect.bisect` (bisect_right) returns the number of elements `≤ v`;
all uses below are on the sorted knot list. -/
def searchIndex (xs : List ℝ) (v : ℝ) : ℕ :=
  xs.countP (fun e => decide (e ≤ v)) - 1

/-- CubicSpline1D.__calc_A as the final state of the loop-filled matrix:
row 0 and row `nx-1` are unit rows (their off-diagonal writes are zeroed
after the loop), the interior rows are the tridiagonal
`h[r-1], 2*(h[r-1]+h[r]), h[r]`. -/
def calc_A (nx : ℕ) (h : ℕ → ℝ) : Matrix (Fin nx) (Fin nx) ℝ := fun r c =>
  if r.val = 0 then (if c.val = 0 then 1 else 0)
  else if r.val = nx - 1 then (if c.val = nx - 1 then 1 else 0)
  else if c.val = r.val then 2 * (h (r.val - 1) + h r.val)
  else if c.val = r.val - 1 then h (r.val - 1)
  else if c.val = r.val + 1 then h r.val
  else 0

/-- CubicSpline1D.__calc_B: interior entries `3*(a[i+2]-a[i+1])/h[i+1] -
3*(a[i+1]-a[i])/h[i]` (written at index `i+1`), zero at both ends. -/
def calc_B (nx : ℕ) (h a : ℕ → ℝ) : Fin nx → ℝ := fun i =>
  if 1 ≤ i.val ∧ i.val ≤ nx - 2 then
    3 * (a (i.val + 1) - a i.val) / h i.val -
      3 * (a i.val - a (i.val - 1)) / h (i.val - 1)
  else 0

/-- The fields of a constructed CubicSpline1D. -/
structure Spline1D where
  x : List ℝ
  y : List ℝ
  a : List ℝ
  b : List ℝ
  c : List ℝ
  d : List ℝ

/-- Segment lengths `h = np.diff(x)` as a function of the segment number. -/
def spline_h (x : List ℝ) : ℕ → ℝ := fun i => x.getD (i + 1) 0 - x.getD i 0

/-- The `c` coefficients: the solution of the tridiagonal system
`A c = B` that `np.linalg.solve` computes (read off entrywise). -/
def spline_c (x y : List ℝ) : ℕ → ℝ := fun i =>
  if hi : i < x.length then
    ((calc_A x.length (spline_h x))⁻¹).mulVec
      (calc_B x.length (spline_h x) (fun j => y.getD j 0)) ⟨i, hi⟩
  else 0

/-- The `b` coefficients of the `nx - 1` segments. -/
def spline_b (x y : List ℝ) : ℕ → ℝ := fun i =>
  1 / spline_h x i * (y.getD (i + 1) 0 - y.getD i 0) -
    spline_h x i / 3 * (2 * spline_c x y i + spline_c x y (i + 1))

/-- The `d` coefficients of the `nx - 1` segments. -/
def spline_d (x y : List ℝ) : ℕ → ℝ := fun i =>
  (spline_c x y (i + 1) - spline_c x y i) / (3 * spline_h x i)

/-- CubicSpline1D.__init__.  `h = np.diff(x)`; a ValueError is raised only
when some `h` entry is strictly negative (`np.any(h < 0)`); `c` solves the
tridiagonal system (np.linalg.solve raises LinAlgError exactly on a
singular matrix, which is the `IsUnit` guard); `a` is a copy of `y`; `b`
and `d` are the `nx - 1` derived segment coefficients (float division by a
zero `h` yields non-finite values, not an error). -/
def mkCubicSpline1D (x y : List ℝ) : Except PyErr Spline1D :=
  if ∃ i, i < x.length - 1 ∧ spline_h x i < 0 then .error .valueError
  else if IsUnit (calc_A x.length (spline_h x)).det then
    .ok ⟨x, y, y,
      (List.range (x.length - 1)).map (spline_b x y),
      (List.range x.length).map (spline_c x y),
      (List.range (x.length - 1)).map (spline_d x y)⟩
  else .error .linAlgError

/-- CubicSpline1D.calc_position: `None` outside the knot range, otherwise
`a[i] + b[i]*dx + c[i]*dx^2 + d[i]*dx^3` at the bisected segment index;
an out-of-range coefficient subscript raises IndexError. -/
def Spline1D.calc_position (s : Spline1D) (v : ℝ) : Except PyErr (Option ℝ) :=
  if v < s.x.getD 0 0 then .ok none
  else if v > s.x.getD (s.x.length - 1) 0 then .ok none
  else
    let i := searchIndex s.x v
    let dx := v - s.x.getD i 0
    match s.a.get? i, s.b.get? i, s.c.get? i, s.d.get? i with
    | some ai, some bi, some ci, some di =>
        .ok (some (ai + bi * dx + ci * dx ^ 2 + di * dx ^ 3))
    | _, _, _, _ => .error .indexError

/-- A constructed CubicSpline2D: the arc-length knots and the two 1D
splines fitted against them. -/
structure Spline2D where
  s : List ℝ
  sx : Spline1D
  sy : Spline1D

/-- CubicSpline2D.__init__. -/
def mkCubicSpline2D (x y : List ℝ) : Except PyErr Spline2D :=
  let s := calc_s x y
  match mkCubicSpline1D s x, mkCubicSpline1D s y with
  | .ok sx, .ok sy => .ok ⟨s, sx, sy⟩
  | .error e, _ => .error e
  | _, .error e => .error e

/-- CubicSpline2D.calc_position: evaluates both axis splines at the same
arc length (an IndexError in either propagates). -/
def Spline2D.calc_position (sp : Spline2D) (v : ℝ) :
    Except PyErr (Option ℝ × Option ℝ) :=
  match sp.sx.calc_position v, sp.sy.calc_position v with
  | .ok xv, .ok yv => .ok (xv, yv)
  | .error e, _ => .error e
  | _, .error e => .error e

/-- The all-zero QP assignment, used to witness the solver contract. -/
def zero_sol : QPSolution := ⟨fun _ _ => 0, fun _ _ => 0⟩

/-- A solver used in witnesses: it answers with the all-zero assignment
whenever that assignment satisfies the submitted constraints, and reports
failure otherwise — so it honours the feasibility contract by
construction. -/
def feas_solver : (QPSolution → ℝ) → (QPSolution → Prop) → Option QPSolution :=
  fun _ cons => if cons zero_sol then some zero_sol else none

end

-- Helper lemmas about the angle normalisation

theorem fmod_nonneg_lt (a m : ℝ) (hm : 0 < m) : 0 ≤ fmod a m ∧ fmod a m < m := by
  have hm0 : m ≠ 0 := ne_of_gt hm
  have h1 : fmod a m = m * Int.fract (a / m) := by
    unfold fmod Int.fract
    field_simp
  rw [h1]
  constructor
  · exact mul_nonneg hm.le (Int.fract_nonneg _)
  · calc m * Int.fract (a / m) < m * 1 := by
          exact (mul_lt_mul_left hm).mpr (Int.fract_lt_one _)
    _ = m := mul_one m

theorem pi_2_pi_eq_self {x : ℝ} (h1 : -Real.pi ≤ x) (h2 : x < Real.pi) :
    pi_2_pi x = x := by
  unfold pi_2_pi angle_mod fmod
  have hfl : ⌊(x + Real.pi) / (2 * Real.pi)⌋ = 0 := by
    rw [Int.floor_eq_zero_iff]
    refine Set.mem_Ico.mpr ⟨div_nonneg (by linarith) Real.two_pi_pos.le, ?_⟩
    exact (div_lt_one Real.two_pi_pos).mpr (by linarith)
  rw [hfl]
  push_cast
  ring

theorem pi_2_pi_zero : pi_2_pi 0 = 0 :=
  pi_2_pi_eq_self (by linarith [Real.pi_pos]) Real.pi_pos

theorem atan2_zero_one : atan2 0 1 = 0 := by
  unfold atan2
  rw [if_pos one_pos]
  norm_num

theorem atan2_one_one : atan2 1 1 = Real.pi / 4 := by
  unfold atan2
  rw [if_pos one_pos]
  norm_num [Real.arctan_one]

-- Claim C10

/-- Claim C10: for every real input angle `x`, `pi_2_pi x` (angle_mod with
default arguments) lies in the half-open interval `[-pi, pi)` and differs
from `x` by an integer multiple of `2 * pi`. -/
theorem pi_2_pi_range_and_congruence (x : ℝ) :
    -Real.pi ≤ pi_2_pi x ∧ pi_2_pi x < Real.pi ∧
      ∃ k : ℤ, pi_2_pi x = x - k * (2 * Real.pi) := by
  obtain ⟨h0, h1⟩ := fmod_nonneg_lt (x + Real.pi) (2 * Real.pi) Real.two_pi_pos
  refine ⟨?_, ?_, ⟨⌊(x + Real.pi) / (2 * Real.pi)⌋, ?_⟩⟩
  · unfold pi_2_pi angle_mod
    linarith
  · unfold pi_2_pi angle_mod
    linarith
  · unfold pi_2_pi angle_mod fmod
    ring

-- Claim C1

/-- Claim C1 (code bug): `check_goal` returns True for a stopped state 100
units away from the goal, because the broadened test
`d <= GOAL_DIS or any(x < 0 for x in [dx, dy])` accepts any negative
coordinate delta; the claimed condition requires the distance to be at most
`GOAL_DIS = 1.5`, which fails here. -/
theorem check_goal_false_positive :
    check_goal ⟨0, 0, 0, 0⟩ (100, 0) 0 0 ∧
      ¬(Real.sqrt (((0 : ℝ) - 100) ^ 2 + ((0 : ℝ) - 0) ^ 2) ≤ GOAL_DIS) := by
  have hs : Real.sqrt (((0 : ℝ) - 100) ^ 2 + ((0 : ℝ) - 0) ^ 2) = 100 := by
    rw [show ((0 : ℝ) - 100) ^ 2 + ((0 : ℝ) - 0) ^ 2 = 100 ^ 2 by norm_num]
    exact Real.sqrt_sq (by norm_num)
  constructor
  · simp only [check_goal]
    refine ⟨⟨Or.inr (Or.inl (by norm_num)), by norm_num⟩, ?_⟩
    norm_num [STOP_SPEED]
  · rw [hs]
    norm_num [GOAL_DIS]

-- Claim C4

/-- Claim C4: for an operating point `(v, phi, delta)` with
`|delta| <= MAX_STEER` and an acceleration keeping `v + a * DT` inside
`[MIN_SPEED, MAX_SPEED]`, the affine model `(A, B, C)` from
`get_linear_model_matrix`, evaluated at the state `(x, y, v, phi)` with
input `(a, delta)`, reproduces exactly the nonlinear `update_state`
transition. -/
theorem linear_model_exact_at_operating_point (x y v phi a delta : ℝ)
    (hdelta : |delta| ≤ MAX_STEER)
    (hv1 : MIN_SPEED ≤ v + a * DT) (hv2 : v + a * DT ≤ MAX_SPEED) :
    affine_next (get_linear_model_matrix v phi delta) ![x, y, v, phi] ![a, delta] =
      ![(update_state ⟨x, y, phi, v⟩ a delta).x,
        (update_state ⟨x, y, phi, v⟩ a delta).y,
        (update_state ⟨x, y, phi, v⟩ a delta).v,
        (update_state ⟨x, y, phi, v⟩ a delta).yaw] := by
  obtain ⟨hd1, hd2⟩ := abs_le.mp hdelta
  have hδ : (if delta ≥ MAX_STEER then MAX_STEER
      else if delta ≤ -MAX_STEER then -MAX_STEER else delta) = delta := by
    split_ifs with h1 h2 <;> linarith
  have hv : (if v + a * DT > MAX_SPEED then MAX_SPEED
      else if v + a * DT < MIN_SPEED then MIN_SPEED else v + a * DT) = v + a * DT := by
    split_ifs with h1 h2 <;> linarith
  have hcomp : ∀ j : Fin 4,
      affine_next (get_linear_model_matrix v phi delta) ![x, y, v, phi] ![a, delta] j =
      ![(update_state ⟨x, y, phi, v⟩ a delta).x,
        (update_state ⟨x, y, phi, v⟩ a delta).y,
        (update_state ⟨x, y, phi, v⟩ a delta).v,
        (update_state ⟨x, y, phi, v⟩ a delta).yaw] j := by
    intro j
    match j with
    | 0 =>
      simp [affine_next, get_linear_model_matrix, update_state, hδ, hv,
        Matrix.mulVec, Matrix.dotProduct, Fin.sum_univ_four,
        Matrix.cons_val_two, Matrix.cons_val_three] <;> ring
    | 1 =>
      simp [affine_next, get_linear_model_matrix, update_state, hδ, hv,
        Matrix.mulVec, Matrix.dotProduct, Fin.sum_univ_four,
        Matrix.cons_val_two, Matrix.cons_val_three] <;> ring
    | 2 =>
      simp [affine_next, get_linear_model_matrix, update_state, hδ, hv,
        Matrix.mulVec, Matrix.dotProduct, Fin.sum_univ_four,
        Matrix.cons_val_two, Matrix.cons_val_three] <;> ring
    | 3 =>
      simp [affine_next, get_linear_model_matrix, update_state, hδ, hv,
        Matrix.mulVec, Matrix.dotProduct, Fin.sum_univ_four,
        Matrix.cons_val_two, Matrix.cons_val_three] <;> ring
  funext i
  exact hcomp i

/-- Witness for C4 at the concrete operating point
`(x, y, v, phi) = (0, 0, 1, 0)`, `(a, delta) = (0, 0)`. -/
theorem linear_model_exact_witness :
    (|(0 : ℝ)| ≤ MAX_STEER ∧ MIN_SPEED ≤ (1 : ℝ) + 0 * DT ∧ (1 : ℝ) + 0 * DT ≤ MAX_SPEED) ∧
      affine_next (get_linear_model_matrix 1 0 0) ![0, 0, 1, 0] ![0, 0] =
        ![(update_state ⟨0, 0, 0, 1⟩ 0 0).x,
          (update_state ⟨0, 0, 0, 1⟩ 0 0).y,
          (update_state ⟨0, 0, 0, 1⟩ 0 0).v,
          (update_state ⟨0, 0, 0, 1⟩ 0 0).yaw] :=
  ⟨⟨by simp [MAX_STEER, deg2rad]; positivity,
    by norm_num [MIN_SPEED, DT],
    by norm_num [MAX_SPEED, DT]⟩,
   linear_model_exact_at_operating_point 0 0 1 0 0 0
     (by simp [MAX_STEER, deg2rad]; positivity)
     (by norm_num [MIN_SPEED, DT])
     (by norm_num [MAX_SPEED, DT])⟩

-- Claims C7 and C8: the speed profiler

theorem csp_getD (cx cy cyaw : List ℝ) (t : ℝ) (i : ℕ) (hi : i + 1 < cx.length) :
    (calc_speed_profile cx cy cyaw t).getD i 0 =
      (if cspDirAfter cx cy cyaw i ≠ 1 then -t else t) := by
  unfold calc_speed_profile
  rw [List.getD_eq_getElem _ _ (by simp; omega)]
  rw [List.getElem_set_ne (by omega : cx.length - 1 ≠ i)]
  rw [List.getElem_map, List.getElem_range]
  rw [if_pos (by omega : i < cx.length - 1)]

/-- Claim C7 (amended): the 45-degree reverse test decides the sign of
sample `i` only when both coordinate deltas of segment `i` are non-zero;
for an axis-aligned segment the direction flag silently retains its
previous value, so sample `i` repeats sample `i-1`'s speed (and the first
sample stays at `+target`). -/
theorem calc_speed_profile_cases (cx cy cyaw : List ℝ) (t : ℝ) (i : ℕ)
    (hi : i + 1 < cx.length) :
    ((cx.getD (i + 1) 0 - cx.getD i 0 ≠ 0 ∧ cy.getD (i + 1) 0 - cy.getD i 0 ≠ 0) →
      (calc_speed_profile cx cy cyaw t).getD i 0 =
        (if |pi_2_pi (atan2 (cy.getD (i + 1) 0 - cy.getD i 0)
            (cx.getD (i + 1) 0 - cx.getD i 0) - cyaw.getD i 0)| ≥ Real.pi / 4
         then -t else t)) ∧
    (¬(cx.getD (i + 1) 0 - cx.getD i 0 ≠ 0 ∧ cy.getD (i + 1) 0 - cy.getD i 0 ≠ 0) → i = 0 →
      (calc_speed_profile cx cy cyaw t).getD i 0 = t) ∧
    (¬(cx.getD (i + 1) 0 - cx.getD i 0 ≠ 0 ∧ cy.getD (i + 1) 0 - cy.getD i 0 ≠ 0) →
      ∀ j, i = j + 1 →
      (calc_speed_profile cx cy cyaw t).getD i 0 =
        (calc_speed_profile cx cy cyaw t).getD j 0) := by
  refine ⟨?_, ?_, ?_⟩
  · intro hcond
    rw [csp_getD cx cy cyaw t i hi]
    have hstep : cspDirAfter cx cy cyaw i =
        (if |pi_2_pi (atan2 (cy.getD (i + 1) 0 - cy.getD i 0)
            (cx.getD (i + 1) 0 - cx.getD i 0) - cyaw.getD i 0)| ≥ Real.pi / 4
         then (-1 : ℝ) else 1) := by
      cases i with
      | zero =>
        show cspStep cx cy cyaw 0 1 = _
        unfold cspStep
        rw [if_pos hcond]
      | succ k =>
        show cspStep cx cy cyaw (k + 1) (cspDirAfter cx cy cyaw k) = _
        unfold cspStep
        rw [if_pos hcond]
    rw [hstep]
    split_ifs with h1 h2 h3 <;> first | rfl | (norm_num at *)
  · intro hcond h0
    subst h0
    rw [csp_getD cx cy cyaw t 0 hi]
    have hstep : cspDirAfter cx cy cyaw 0 = 1 := by
      show cspStep cx cy cyaw 0 1 = 1
      unfold cspStep
      rw [if_neg hcond]
    rw [hstep]
    norm_num
  · intro hcond j hj
    subst hj
    rw [csp_getD cx cy cyaw t (j + 1) hi, csp_getD cx cy cyaw t j (by omega)]
    have hstep : cspDirAfter cx cy cyaw (j + 1) = cspDirAfter cx cy cyaw j := by
      show cspStep cx cy cyaw (j + 1) (cspDirAfter cx cy cyaw j) = _
      unfold cspStep
      rw [if_neg hcond]
    rw [hstep]

/-- Witness for C7 at the concrete course `cx = [0,1,2]`, `cy = [0,1,1]`,
`cyaw = [pi,0,0]`, `t = 1`, segment `i = 1`. -/
theorem calc_speed_profile_cases_witness :
    (1 + 1 < ([0, 1, 2] : List ℝ).length) ∧
    (((([0, 1, 2] : List ℝ).getD 2 0 - ([0, 1, 2] : List ℝ).getD 1 0 ≠ 0 ∧
        ([0, 1, 1] : List ℝ).getD 2 0 - ([0, 1, 1] : List ℝ).getD 1 0 ≠ 0) →
      (calc_speed_profile [0, 1, 2] [0, 1, 1] [Real.pi, 0, 0] 1).getD 1 0 =
        (if |pi_2_pi (atan2 (([0, 1, 1] : List ℝ).getD 2 0 - ([0, 1, 1] : List ℝ).getD 1 0)
            (([0, 1, 2] : List ℝ).getD 2 0 - ([0, 1, 2] : List ℝ).getD 1 0) -
            ([Real.pi, 0, 0] : List ℝ).getD 1 0)| ≥ Real.pi / 4
         then -1 else 1)) ∧
    (¬(([0, 1, 2] : List ℝ).getD 2 0 - ([0, 1, 2] : List ℝ).getD 1 0 ≠ 0 ∧
        ([0, 1, 1] : List ℝ).getD 2 0 - ([0, 1, 1] : List ℝ).getD 1 0 ≠ 0) → 1 = 0 →
      (calc_speed_profile [0, 1, 2] [0, 1, 1] [Real.pi, 0, 0] 1).getD 1 0 = 1) ∧
    (¬(([0, 1, 2] : List ℝ).getD 2 0 - ([0, 1, 2] : List ℝ).getD 1 0 ≠ 0 ∧
        ([0, 1, 1] : List ℝ).getD 2 0 - ([0, 1, 1] : List ℝ).getD 1 0 ≠ 0) →
      ∀ j, 1 = j + 1 →
      (calc_speed_profile [0, 1, 2] [0, 1, 1] [Real.pi, 0, 0] 1).getD 1 0 =
        (calc_speed_profile [0, 1, 2] [0, 1, 1] [Real.pi, 0, 0] 1).getD j 0)) :=
  ⟨by norm_num,
   calc_speed_profile_cases [0, 1, 2] [0, 1, 1] [Real.pi, 0, 0] 1 1 (by norm_num)⟩

/-- Counterexample to C7 as stated: on the course `cx = [0,1,2]`,
`cy = [0,1,1]`, `cyaw = [pi,0,0]` with `target_speed = 1`, segment 1 is
axis-aligned (`dy = 0`) and its travel direction agrees with the heading
(the normalised deviation is `0 < pi/4`), so the claim assigns `+1`; the
code assigns `-1`, retained from the reversed segment 0. -/
theorem calc_speed_profile_counterexample :
    (calc_speed_profile [0, 1, 2] [0, 1, 1] [Real.pi, 0, 0] 1).getD 1 0 = -1 ∧
      |pi_2_pi (atan2 (([0, 1, 1] : List ℝ).getD 2 0 - ([0, 1, 1] : List ℝ).getD 1 0)
          (([0, 1, 2] : List ℝ).getD 2 0 - ([0, 1, 2] : List ℝ).getD 1 0) -
          ([Real.pi, 0, 0] : List ℝ).getD 1 0)| < Real.pi / 4 := by
  have hpi := Real.pi_pos
  have hval : pi_2_pi (atan2 1 1 - Real.pi) = -(3 * Real.pi / 4) := by
    rw [atan2_one_one, show Real.pi / 4 - Real.pi = -(3 * Real.pi / 4) by ring]
    exact pi_2_pi_eq_self (by linarith) (by linarith)
  constructor
  · have hd0 : cspDirAfter [0, 1, 2] [0, 1, 1] [Real.pi, 0, 0] 0 = -1 := by
      show cspStep [0, 1, 2] [0, 1, 1] [Real.pi, 0, 0] 0 1 = -1
      unfold cspStep
      norm_num [List.getD]
      rw [hval, abs_neg, abs_of_nonneg (by positivity)]
      linarith
    have hd1 : cspDirAfter [0, 1, 2] [0, 1, 1] [Real.pi, 0, 0] 1 = -1 := by
      show cspStep [0, 1, 2] [0, 1, 1] [Real.pi, 0, 0] 1
        (cspDirAfter [0, 1, 2] [0, 1, 1] [Real.pi, 0, 0] 0) = -1
      unfold cspStep
      norm_num [List.getD, hd0]
    rw [csp_getD _ _ _ _ 1 (by norm_num), hd1]
    norm_num
  · norm_num [List.getD]
    rw [atan2_zero_one, pi_2_pi_zero]
    simpa using by positivity

theorem cspStep_forward (cx cy cyaw : List ℝ) (i : ℕ)
    (hy : cyaw.getD i 0 =
      atan2 (cy.getD (i + 1) 0 - cy.getD i 0) (cx.getD (i + 1) 0 - cx.getD i 0)) :
    cspStep cx cy cyaw i 1 = 1 := by
  unfold cspStep
  simp only [hy, sub_self, pi_2_pi_zero, abs_zero, ge_iff_le]
  split_ifs with h1 h2
  · exfalso
    have := Real.pi_pos
    linarith
  · rfl
  · rfl

/-- Claim C8: on a course whose headings agree with the travel direction of
each segment (in particular a perfectly straight course), calc_speed_profile
returns `+target_speed` at every sample except the final one, which is 0. -/
theorem straight_path_speed_profile (cx cy cyaw : List ℝ) (t : ℝ)
    (hn : 2 ≤ cx.length)
    (hyaw : ∀ i, i + 1 < cx.length →
      cyaw.getD i 0 =
        atan2 (cy.getD (i + 1) 0 - cy.getD i 0) (cx.getD (i + 1) 0 - cx.getD i 0)) :
    (∀ i, i + 1 < cx.length → (calc_speed_profile cx cy cyaw t).getD i 0 = t) ∧
      (calc_speed_profile cx cy cyaw t).getD (cx.length - 1) 0 = 0 := by
  have hdir : ∀ i, i + 1 < cx.length → cspDirAfter cx cy cyaw i = 1 := by
    intro i
    induction i with
    | zero =>
      intro h1
      show cspStep cx cy cyaw 0 1 = 1
      exact cspStep_forward cx cy cyaw 0 (hyaw 0 h1)
    | succ k ih =>
      intro h1
      show cspStep cx cy cyaw (k + 1) (cspDirAfter cx cy cyaw k) = 1
      rw [ih (by omega)]
      exact cspStep_forward cx cy cyaw (k + 1) (hyaw (k + 1) h1)
  constructor
  · intro i h
    rw [csp_getD cx cy cyaw t i h, hdir i h]
    norm_num
  · unfold calc_speed_profile
    rw [List.getD_eq_getElem _ _ (by simp; omega)]
    rw [List.getElem_set_self]

/-- Witness for C8 on the straight course `cx = [0,1,2]`, `cy = [0,0,0]`,
`cyaw = [0,0,0]`, `target = 1`. -/
theorem straight_path_speed_profile_witness :
    (2 ≤ ([0, 1, 2] : List ℝ).length) ∧
    (∀ i, i + 1 < ([0, 1, 2] : List ℝ).length →
      ([0, 0, 0] : List ℝ).getD i 0 =
        atan2 (([0, 0, 0] : List ℝ).getD (i + 1) 0 - ([0, 0, 0] : List ℝ).getD i 0)
          (([0, 1, 2] : List ℝ).getD (i + 1) 0 - ([0, 1, 2] : List ℝ).getD i 0)) ∧
    ((∀ i, i + 1 < ([0, 1, 2] : List ℝ).length →
        (calc_speed_profile [0, 1, 2] [0, 0, 0] [0, 0, 0] 1).getD i 0 = 1) ∧
      (calc_speed_profile [0, 1, 2] [0, 0, 0] [0, 0, 0] 1).getD
        (([0, 1, 2] : List ℝ).length - 1) 0 = 0) := by
  have hyaw : ∀ i, i + 1 < ([0, 1, 2] : List ℝ).length →
      ([0, 0, 0] : List ℝ).getD i 0 =
        atan2 (([0, 0, 0] : List ℝ).getD (i + 1) 0 - ([0, 0, 0] : List ℝ).getD i 0)
          (([0, 1, 2] : List ℝ).getD (i + 1) 0 - ([0, 1, 2] : List ℝ).getD i 0) := by
    intro i hi
    have hi2 : i < 2 := by simp at hi; omega
    interval_cases i
    · norm_num [List.getD]
      rw [atan2_zero_one]
    · norm_num [List.getD]
      rw [atan2_zero_one]
  exact ⟨by norm_num, hyaw,
    straight_path_speed_profile [0, 1, 2] [0, 0, 0] [0, 0, 0] 1 (by norm_num) hyaw⟩

-- Claim C9: the reference tracker

theorem pyMinList_eq_none_iff (l : List ℝ) : pyMinList l = none ↔ l = [] := by
  cases l <;> simp [pyMinList]

theorem calc_nearest_index_isSome (st : State) (cx cy cyaw : List ℝ) (pind : ℕ)
    (hx : pind < cx.length) (hy : pind < cy.length) :
    ∃ p, calc_nearest_index st cx cy cyaw pind = some p := by
  simp only [calc_nearest_index]
  set d := List.zipWith (fun icx icy => (st.x - icx) ^ 2 + (st.y - icy) ^ 2)
    ((cx.drop pind).take N_IND_SEARCH) ((cy.drop pind).take N_IND_SEARCH) with hd
  have hne : d ≠ [] := by
    rw [hd, Ne, List.zipWith_eq_nil_iff]
    push_neg
    constructor <;>
      (rw [Ne, List.take_eq_nil_iff] <;> push_neg) <;>
      refine ⟨by norm_num [N_IND_SEARCH], ?_⟩ <;>
      rw [Ne, List.drop_eq_nil_iff_le] <;> omega
  cases hm : pyMinList d with
  | none => exact absurd ((pyMinList_eq_none_iff d).mp hm) hne
  | some m => exact ⟨_, rfl⟩

/-- Claim C9: whenever the forward search window starting at `pind` is
non-empty, calc_ref_trajectory returns a reference index that is at least
`pind`: the tracked index never moves backward. -/
theorem calc_ref_trajectory_never_backward (st : State) (cx cy cyaw ck sp : List ℝ)
    (dl : ℝ) (pind : ℕ) (hx : pind < cx.length) (hy : pind < cy.length) :
    ∃ xref ind dref, calc_ref_trajectory st cx cy cyaw ck sp dl pind =
      some (xref, ind, dref) ∧ pind ≤ ind := by
  obtain ⟨⟨ind0, m⟩, hp⟩ := calc_nearest_index_isSome st cx cy cyaw pind hx hy
  simp only [calc_ref_trajectory]
  rw [hp]
  refine ⟨_, _, _, rfl, ?_⟩
  split_ifs with h
  · exact le_refl pind
  · omega

/-- Witness for C9: a two-point course with `pind = 1`. -/
theorem calc_ref_trajectory_never_backward_witness :
    ((1 : ℕ) < ([0, 1] : List ℝ).length ∧ (1 : ℕ) < ([0, 0] : List ℝ).length) ∧
    ∃ xref ind dref,
      calc_ref_trajectory ⟨0, 0, 0, 0⟩ [0, 1] [0, 0] [0, 0] [0, 0] [0, 0] 1 1 =
        some (xref, ind, dref) ∧ 1 ≤ ind :=
  ⟨⟨by norm_num, by norm_num⟩,
   calc_ref_trajectory_never_backward ⟨0, 0, 0, 0⟩ [0, 1] [0, 0] [0, 0] [0, 0] [0, 0] 1 1
     (by norm_num) (by norm_num)⟩

-- Claims C2 and C3: the iterative MPC loop

/-- Claim C2 (code bug): when the QP solver reports a non-optimal status
during the first refinement iteration (linear_mpc_control hands back its
`None` sentinel), iterative_linear_mpc_control does not return a failure
signal: the next line `du = sum(abs(oa - poa)) + sum(abs(od - pod))`
subtracts a list from `None` and the tick dies with an uncaught
`TypeError`. -/
theorem ilmpc_crashes_on_solver_failure :
    iterative_linear_mpc_control (fun _ _ => none) (fun _ _ => 0) (fun _ => 0) (fun _ => 0)
      none none = PyRes.typeError := rfl

/-- Whenever iterative_linear_mpc_control does return normally, the result
carries a solved trajectory: the `None` no-control failure signal its caller
tests for (`if odelta is not None`) is never actually produced. -/
theorem ilmpc_ok_never_none
    (solveQP : (QPSolution → ℝ) → (QPSolution → Prop) → Option QPSolution)
    (xref : ℕ → Fin 4 → ℝ) (x0 : Fin 4 → ℝ) (dref : ℕ → ℝ) (oa0 od0 : Option (ℕ → ℝ))
    (out : LMPCOut)
    (h : iterative_linear_mpc_control solveQP xref x0 dref oa0 od0 = PyRes.ok out) :
    out.traj ≠ none := by
  have key : ∀ k cur out1,
      ilmpc_loop solveQP xref x0 dref (k + 1) cur = PyRes.ok out1 → out1.traj ≠ none := by
    intro k
    induction k with
    | zero =>
      intro cur out1 h1
      unfold ilmpc_loop at h1
      rcases heq : linear_mpc_control solveQP xref (predict_motion x0 cur.oa cur.od) x0 dref
        with _ | ⟨oa, od, ox, oy, oyaw, ov⟩
      · rw [heq] at h1
        cases h1
      · rw [heq] at h1
        simp only at h1
        split_ifs at h1
        · cases h1
          simp
        · unfold ilmpc_loop at h1
          cases h1
          simp
    | succ n ih =>
      intro cur out1 h1
      unfold ilmpc_loop at h1
      rcases heq : linear_mpc_control solveQP xref (predict_motion x0 cur.oa cur.od) x0 dref
        with _ | ⟨oa, od, ox, oy, oyaw, ov⟩
      · rw [heq] at h1
        cases h1
      · rw [heq] at h1
        simp only at h1
        split_ifs at h1
        · cases h1
          simp
        · exact ih _ _ h1
  rcases oa0 with _ | oa <;> rcases od0 with _ | od <;> exact key 2 _ _ h

/-- Claim C3: assuming the QP solver's result contract (a successful solve
returns an assignment satisfying the submitted constraint set), every
control sequence returned by linear_mpc_control — and hence every sequence
iterative_linear_mpc_control hands back — obeys the actuator bounds
`|a| <= MAX_ACCEL`, `|delta| <= MAX_STEER` at every horizon step and the
steering-rate bound `|delta[t+1] - delta[t]| <= MAX_DSTEER * DT` between
every pair of consecutive steps. -/
theorem linear_mpc_control_output_bounds
    (solveQP : (QPSolution → ℝ) → (QPSolution → Prop) → Option QPSolution)
    (xref : ℕ → Fin 4 → ℝ) (x0 : Fin 4 → ℝ) (dref : ℕ → ℝ)
    (hcontract : ∀ xbar sol,
      solveQP (mpc_cost xref) (mpc_constraints xbar dref x0) = some sol →
      mpc_constraints xbar dref x0 sol) :
    (∀ xbar oa od ox oy oyaw ov,
      linear_mpc_control solveQP xref xbar x0 dref = some (oa, od, ox, oy, oyaw, ov) →
      (∀ t < T, |oa t| ≤ MAX_ACCEL ∧ |od t| ≤ MAX_STEER) ∧
      (∀ t, t + 1 < T → |od (t + 1) - od t| ≤ MAX_DSTEER * DT)) ∧
    (∀ oa0 od0 out,
      iterative_linear_mpc_control solveQP xref x0 dref oa0 od0 = PyRes.ok out →
      (∀ t < T, |out.oa t| ≤ MAX_ACCEL ∧ |out.od t| ≤ MAX_STEER) ∧
      (∀ t, t + 1 < T → |out.od (t + 1) - out.od t| ≤ MAX_DSTEER * DT)) := by
  have lin : ∀ xbar oa od ox oy oyaw ov,
      linear_mpc_control solveQP xref xbar x0 dref = some (oa, od, ox, oy, oyaw, ov) →
      (∀ t < T, |oa t| ≤ MAX_ACCEL ∧ |od t| ≤ MAX_STEER) ∧
      (∀ t, t + 1 < T → |od (t + 1) - od t| ≤ MAX_DSTEER * DT) := by
    intro xbar oa od ox oy oyaw ov h
    unfold linear_mpc_control at h
    rcases heq : solveQP (mpc_cost xref) (mpc_constraints xbar dref x0) with _ | sol
    · rw [heq] at h
      cases h
    · rw [heq] at h
      simp only [Option.some.injEq, Prod.mk.injEq] at h
      obtain ⟨ha, hd, -⟩ := h
      obtain ⟨-, hrate, -, -, hin⟩ := hcontract xbar sol heq
      subst ha
      subst hd
      exact ⟨fun t ht => hin t ht, fun t ht => hrate t ht⟩
  refine ⟨lin, ?_⟩
  have key : ∀ k cur out,
      ilmpc_loop solveQP xref x0 dref (k + 1) cur = PyRes.ok out →
      (∀ t < T, |out.oa t| ≤ MAX_ACCEL ∧ |out.od t| ≤ MAX_STEER) ∧
      (∀ t, t + 1 < T → |out.od (t + 1) - out.od t| ≤ MAX_DSTEER * DT) := by
    intro k
    induction k with
    | zero =>
      intro cur out h1
      unfold ilmpc_loop at h1
      rcases heq : linear_mpc_control solveQP xref (predict_motion x0 cur.oa cur.od) x0 dref
        with _ | ⟨oa, od, ox, oy, oyaw, ov⟩
      · rw [heq] at h1
        cases h1
      · rw [heq] at h1
        simp only at h1
        split_ifs at h1
        · cases h1
          exact lin _ _ _ _ _ _ _ heq
        · unfold ilmpc_loop at h1
          cases h1
          exact lin _ _ _ _ _ _ _ heq
    | succ n ih =>
      intro cur out h1
      unfold ilmpc_loop at h1
      rcases heq : linear_mpc_control solveQP xref (predict_motion x0 cur.oa cur.od) x0 dref
        with _ | ⟨oa, od, ox, oy, oyaw, ov⟩
      · rw [heq] at h1
        cases h1
      · rw [heq] at h1
        simp only at h1
        split_ifs at h1
        · cases h1
          exact lin _ _ _ _ _ _ _ heq
        · exact ih _ _ h1
  intro oa0 od0 out h
  rcases oa0 with _ | oa <;> rcases od0 with _ | od <;> exact key 2 _ _ h

/-- Witness for C3: the contract hypothesis is dischargeable, e.g. by the
solver that answers with the all-zero assignment exactly when it is
feasible. -/
theorem linear_mpc_control_output_bounds_witness :
    (∀ xbar sol,
      feas_solver (mpc_cost fun _ _ => 0) (mpc_constraints xbar (fun _ => 0) (fun _ => 0)) =
        some sol → mpc_constraints xbar (fun _ => 0) (fun _ => 0) sol) ∧
    ((∀ xbar oa od ox oy oyaw ov,
      linear_mpc_control feas_solver (fun _ _ => 0) xbar (fun _ => 0) (fun _ => 0) =
        some (oa, od, ox, oy, oyaw, ov) →
      (∀ t < T, |oa t| ≤ MAX_ACCEL ∧ |od t| ≤ MAX_STEER) ∧
      (∀ t, t + 1 < T → |od (t + 1) - od t| ≤ MAX_DSTEER * DT)) ∧
    (∀ oa0 od0 out,
      iterative_linear_mpc_control feas_solver (fun _ _ => 0) (fun _ => 0) (fun _ => 0)
        oa0 od0 = PyRes.ok out →
      (∀ t < T, |out.oa t| ≤ MAX_ACCEL ∧ |out.od t| ≤ MAX_STEER) ∧
      (∀ t, t + 1 < T → |out.od (t + 1) - out.od t| ≤ MAX_DSTEER * DT))) := by
  have hc : ∀ xbar sol,
      feas_solver (mpc_cost fun _ _ => 0) (mpc_constraints xbar (fun _ => 0) (fun _ => 0)) =
        some sol → mpc_constraints xbar (fun _ => 0) (fun _ => 0) sol := by
    intro xbar sol h
    unfold feas_solver at h
    split_ifs at h with hcs
    injection h with h2
    subst h2
    exact hcs
  exact ⟨hc, linear_mpc_control_output_bounds feas_solver (fun _ _ => 0) (fun _ => 0)
    (fun _ => 0) hc⟩

-- Claims C5 and C6: the cubic spline

theorem mkCubicSpline1D_ok (x y : List ℝ)
    (hsort : ¬∃ i, i < x.length - 1 ∧ spline_h x i < 0)
    (hdet : IsUnit (calc_A x.length (spline_h x)).det) :
    mkCubicSpline1D x y = .ok
      ⟨x, y, y,
       (List.range (x.length - 1)).map (spline_b x y),
       (List.range x.length).map (spline_c x y),
       (List.range (x.length - 1)).map (spline_d x y)⟩ := by
  unfold mkCubicSpline1D
  rw [if_neg hsort, if_pos hdet]

theorem scanl_getD_zero (l : List ℝ) (q : ℝ) :
    (List.scanl (· + ·) q l).getD 0 0 = q := by
  cases l <;> simp [List.scanl]

theorem scanl_getD_succ (l : List ℝ) (q : ℝ) (i : ℕ) (hi : i < l.length) :
    (List.scanl (· + ·) q l).getD (i + 1) 0 =
      (List.scanl (· + ·) q l).getD i 0 + l.getD i 0 := by
  induction l generalizing q i with
  | nil => simp at hi
  | cons a tl ih =>
    cases i with
    | zero => simp [List.scanl, scanl_getD_zero]
    | succ j =>
      simp only [List.scanl, List.getD_cons_succ]
      exact ih (q + a) j (by simpa using hi)

/-- The cumulative arc-length knots are non-decreasing for every waypoint
input (chord lengths are square roots), so the `np.any(h < 0)` check in the
spline constructor can never fire on them. -/
theorem calc_s_nondecreasing (x y : List ℝ) :
    ¬∃ i, i < (calc_s x y).length - 1 ∧ spline_h (calc_s x y) i < 0 := by
  rintro ⟨i, hi, hneg⟩
  set ds := List.zipWith (fun a b => Real.sqrt (a ^ 2 + b ^ 2)) (npDiff x) (npDiff y) with hds
  have hlen : (calc_s x y).length = ds.length + 1 := by
    simp [calc_s, List.length_scanl, hds]
  have hi2 : i < ds.length := by omega
  have hstep : spline_h (calc_s x y) i = ds.getD i 0 := by
    unfold spline_h calc_s
    rw [← hds, scanl_getD_succ ds 0 i hi2]
    ring
  rw [hstep] at hneg
  have hnn : 0 ≤ ds.getD i 0 := by
    rw [hds]
    rw [List.getD_eq_getElem _ _ (by rw [← hds]; exact hi2), List.getElem_zipWith]
    positivity
  linarith

/-- Claim C6 (amended): construction does not fail on duplicate consecutive
waypoints; the only error the constructor can raise on arc-length knots is
LinAlgError from an exactly singular tridiagonal system, so whenever that
system is nonsingular the CubicSpline2D construction completes normally. -/
theorem mkCubicSpline2D_ok_of_nonsingular (x y : List ℝ)
    (hdet : IsUnit (calc_A (calc_s x y).length (spline_h (calc_s x y))).det) :
    ∃ sp, mkCubicSpline2D x y = .ok sp := by
  simp only [mkCubicSpline2D]
  rw [mkCubicSpline1D_ok (calc_s x y) x (calc_s_nondecreasing x y) hdet,
      mkCubicSpline1D_ok (calc_s x y) y (calc_s_nondecreasing x y) hdet]
  exact ⟨_, rfl⟩

theorem calc_A_two (h : ℕ → ℝ) : calc_A 2 h = 1 := by
  ext i j
  fin_cases i <;> fin_cases j <;> simp [calc_A, Matrix.one_apply]

/-- Witness for C6 (amended) on the plain two-point course `(0,0), (1,0)`. -/
theorem mkCubicSpline2D_ok_witness :
    IsUnit (calc_A (calc_s [0, 1] [0, 0]).length (spline_h (calc_s [0, 1] [0, 0]))).det ∧
      ∃ sp, mkCubicSpline2D [0, 1] [0, 0] = Except.ok sp := by
  have h2 : (calc_s ([0, 1] : List ℝ) ([0, 0] : List ℝ)).length = 2 := by
    simp [calc_s, npDiff, List.length_scanl]
  have hdet : IsUnit
      (calc_A (calc_s [0, 1] [0, 0]).length (spline_h (calc_s [0, 1] [0, 0]))).det := by
    rw [h2, calc_A_two]
    simp
  exact ⟨hdet, mkCubicSpline2D_ok_of_nonsingular [0, 1] [0, 0] hdet⟩

/-- Counterexample to C6 as stated: the waypoint list `(0,0), (0,0), (1,0)`
has a duplicate consecutive point (zero-length first segment, arc lengths
`[0, 0, 1]`), yet CubicSpline2D construction completes without any error:
`np.any(h < 0)` does not fire on a zero chord and the tridiagonal system is
nonsingular. -/
theorem mkCubicSpline2D_duplicate_ok :
    ∃ sp, mkCubicSpline2D [0, 0, 1] [0, 0, 0] = Except.ok sp := by
  have hcs : calc_s ([0, 0, 1] : List ℝ) ([0, 0, 0] : List ℝ) = [0, 0, 1] := by
    unfold calc_s npDiff
    norm_num [List.scanl]
  have hA3 : calc_A 3 (spline_h [0, 0, 1]) = !![1, 0, 0; 0, 2, 1; 0, 0, 1] := by
    ext i j
    fin_cases i <;> fin_cases j <;>
      simp [calc_A, spline_h, List.getD, Matrix.vecHead, Matrix.vecTail] <;> norm_num
  have hdetval : (!![1, 0, 0; 0, 2, 1; 0, 0, 1] : Matrix (Fin 3) (Fin 3) ℝ).det = 2 := by
    rw [Matrix.det_fin_three]
    norm_num [Matrix.vecHead, Matrix.vecTail]
  have hdet9 : IsUnit (calc_A 3 (spline_h ([0, 0, 1] : List ℝ))).det := by
    rw [hA3, hdetval]
    exact isUnit_iff_ne_zero.mpr (by norm_num)
  have hdet3 : IsUnit
      (calc_A ([0, 0, 1] : List ℝ).length (spline_h ([0, 0, 1] : List ℝ))).det := hdet9
  have hdet : IsUnit (calc_A (calc_s [0, 0, 1] [0, 0, 0]).length
      (spline_h (calc_s [0, 0, 1] [0, 0, 0]))).det := by
    rw [hcs]
    exact hdet3
  simp only [mkCubicSpline2D]
  rw [mkCubicSpline1D_ok _ _ (calc_s_nondecreasing [0, 0, 1] [0, 0, 0]) hdet,
      mkCubicSpline1D_ok _ _ (calc_s_nondecreasing [0, 0, 1] [0, 0, 0]) hdet]
  exact ⟨_, rfl⟩

/-- Claim C5 (code bug): build the reference path from the two waypoints
`(0,0), (1,0)` (arc lengths `[0, 1]`) and evaluate the fitted curve at the
last waypoint's own arc length `s = 1`.  The domain guard admits `s = 1`,
`bisect` yields segment index `nx - 1 = 1`, and the read of `b[1]` — a list
with a single entry — raises IndexError instead of returning the waypoint
`(1, 0)`. -/
theorem spline_last_knot_index_error :
    (mkCubicSpline2D [0, 1] [0, 0]).bind (fun sp => sp.calc_position 1) =
      .error .indexError := by
  have hcs : calc_s ([0, 1] : List ℝ) ([0, 0] : List ℝ) = [0, 1] := by
    unfold calc_s npDiff
    norm_num [List.scanl]
  have hsort : ¬∃ i, i < ([0, 1] : List ℝ).length - 1 ∧ spline_h ([0, 1] : List ℝ) i < 0 := by
    rintro ⟨i, hi, hneg⟩
    have hi0 : i = 0 := by simpa using hi
    subst hi0
    norm_num [spline_h, List.getD] at hneg
  have hdet2 : IsUnit (calc_A 2 (spline_h ([0, 1] : List ℝ))).det := by
    rw [calc_A_two]
    simp
  have hdet : IsUnit (calc_A ([0, 1] : List ℝ).length (spline_h ([0, 1] : List ℝ))).det := hdet2
  have hmk2 : mkCubicSpline2D [0, 1] [0, 0] = .ok
      ⟨[0, 1],
       ⟨[0, 1], [0, 1], [0, 1],
        (List.range (([0, 1] : List ℝ).length - 1)).map (spline_b [0, 1] [0, 1]),
        (List.range ([0, 1] : List ℝ).length).map (spline_c [0, 1] [0, 1]),
        (List.range (([0, 1] : List ℝ).length - 1)).map (spline_d [0, 1] [0, 1])⟩,
       ⟨[0, 1], [0, 0], [0, 0],
        (List.range (([0, 1] : List ℝ).length - 1)).map (spline_b [0, 1] [0, 0]),
        (List.range ([0, 1] : List ℝ).length).map (spline_c [0, 1] [0, 0]),
        (List.range (([0, 1] : List ℝ).length - 1)).map (spline_d [0, 1] [0, 0])⟩⟩ := by
    simp only [mkCubicSpline2D, hcs]
    rw [mkCubicSpline1D_ok [0, 1] [0, 1] hsort hdet,
        mkCubicSpline1D_ok [0, 1] [0, 0] hsort hdet]
  have hsi : searchIndex ([0, 1] : List ℝ) 1 = 1 := by
    unfold searchIndex
    norm_num [List.countP_cons, List.countP_nil]
  have hsx : Spline1D.calc_position
      ⟨[0, 1], [0, 1], [0, 1],
       (List.range (([0, 1] : List ℝ).length - 1)).map (spline_b [0, 1] [0, 1]),
       (List.range ([0, 1] : List ℝ).length).map (spline_c [0, 1] [0, 1]),
       (List.range (([0, 1] : List ℝ).length - 1)).map (spline_d [0, 1] [0, 1])⟩ 1 =
      .error .indexError := by
    unfold Spline1D.calc_position
    rw [if_neg (by norm_num [List.getD]), if_neg (by norm_num [List.getD])]
    simp [hsi, List.range_succ]
  rw [hmk2]
  simp only [Except.bind, Spline2D.calc_position, hsx]

theorem pm_state_zero (n : ℕ) :
    pm_state (fun _ => 0) (fun _ => 0) (fun _ => 0) n = ⟨0, 0, 0, 0⟩ := by
  induction n with
  | zero => rfl
  | succ k ih =>
    show update_state (pm_state (fun _ => 0) (fun _ => 0) (fun _ => 0) k) 0 0 = _
    rw [ih]
    unfold update_state
    norm_num [MAX_SPEED, MIN_SPEED]

theorem zero_sol_feasible :
    mpc_constraints (predict_motion (fun _ => 0) (fun _ => 0) (fun _ => 0))
      (fun _ => 0) (fun _ => 0) zero_sol := by
  have hxbar : ∀ t j, predict_motion (fun _ => 0) (fun _ => 0) (fun _ => 0) t j = 0 := by
    intro t j
    unfold predict_motion
    rw [pm_state_zero]
    match j with
    | 0 => rfl
    | 1 => rfl
    | 2 => rfl
    | 3 => rfl
  have haff : affine_next (get_linear_model_matrix 0 0 0) (fun _ => 0) (fun _ => 0) =
      fun _ => 0 := by
    funext j
    have hj : ∀ j1 : Fin 4,
        affine_next (get_linear_model_matrix 0 0 0) (fun _ => 0) (fun _ => 0) j1 =
        ![(0 : ℝ), 0, 0, 0] j1 := by
      intro j1
      match j1 with
      | 0 => simp [affine_next, get_linear_model_matrix, Matrix.mulVec, Matrix.dotProduct]
      | 1 => simp [affine_next, get_linear_model_matrix, Matrix.mulVec, Matrix.dotProduct]
      | 2 => simp [affine_next, get_linear_model_matrix, Matrix.mulVec, Matrix.dotProduct]
      | 3 => simp [affine_next, get_linear_model_matrix, Matrix.mulVec, Matrix.dotProduct]
    rw [hj j]
    match j with
    | 0 => rfl
    | 1 => rfl
    | 2 => rfl
    | 3 => rfl
  refine ⟨?_, ?_, ?_, ?_, ?_⟩
  · intro t ht
    show (fun _ => (0 : ℝ)) = _
    rw [hxbar t 2, hxbar t 3]
    exact haff.symm
  · intro t ht
    show |(0 : ℝ) - 0| ≤ _
    rw [sub_zero, abs_zero]
    unfold MAX_DSTEER DT deg2rad
    positivity
  · rfl
  · intro t ht
    norm_num [MAX_SPEED, MIN_SPEED, zero_sol]
  · intro t ht
    constructor
    · show |(0 : ℝ)| ≤ _
      norm_num [MAX_ACCEL]
    · show |(0 : ℝ)| ≤ _
      rw [abs_zero]
      unfold MAX_STEER deg2rad
      positivity

/-- On the trivial all-zero scenario the refinement loop does return
normally (first iteration solves and the change metric is 0 <= DU_TH), so
the success case of the loop is reachable. -/
theorem ilmpc_zero_scenario_ok :
    iterative_linear_mpc_control feas_solver (fun _ _ => 0) (fun _ => 0) (fun _ => 0)
      none none =
      PyRes.ok ⟨fun t => zero_sol.us t 0, fun t => zero_sol.us t 1,
        some (fun t => zero_sol.xs t 0, fun t => zero_sol.xs t 1,
          fun t => zero_sol.xs t 3, fun t => zero_sol.xs t 2)⟩ := by
  have hsolve : feas_solver (mpc_cost fun _ _ => 0)
      (mpc_constraints (predict_motion (fun _ => 0) (fun _ => 0) (fun _ => 0))
        (fun _ => 0) (fun _ => 0)) = some zero_sol := by
    unfold feas_solver
    rw [if_pos zero_sol_feasible]
  have hlin : linear_mpc_control feas_solver (fun _ _ => 0)
      (predict_motion (fun _ => 0) (fun _ => 0) (fun _ => 0)) (fun _ => 0) (fun _ => 0) =
      some (fun t => zero_sol.us t 0, fun t => zero_sol.us t 1,
        fun t => zero_sol.xs t 0, fun t => zero_sol.xs t 1,
        fun t => zero_sol.xs t 3, fun t => zero_sol.xs t 2) := by
    unfold linear_mpc_control
    rw [hsolve]
  show ilmpc_loop feas_solver (fun _ _ => 0) (fun _ => 0) (fun _ => 0) MAX_ITER
      ⟨fun _ => 0, fun _ => 0, none⟩ = _
  show ilmpc_loop feas_solver (fun _ _ => 0) (fun _ => 0) (fun _ => 0) (2 + 1)
      ⟨fun _ => 0, fun _ => 0, none⟩ = _
  unfold ilmpc_loop
  rw [hlin]
  simp only
  rw [if_pos]
  unfold du_val
  have : ∀ t : ℕ, |zero_sol.us t 0 - (0 : ℝ)| = 0 := by
    intro t
    simp [zero_sol]
  norm_num [zero_sol, DU_TH]
